import Mathlib

/-
  Verification of the LEDE firmware builder (lede/builder.py).

  The Python source is shallowly embedded: pure helpers become Lean
  functions, filesystem reads become lookups in an explicit association
  list, external effects (git, ssh/sftp, subprocesses) become explicit
  action traces, and the fatal `BuilderStop` exception becomes an
  `Except`/flag value.  Machine details that the claims do not touch
  (progress printing, logging formatting beyond severity and message,
  process spawning) are kept only as far as the claims mention them.
-/

set_option maxRecDepth 8000

/-- Severity of a message reported through the logging module. -/
inductive LogLevel where
  | debug
  | info
  | warning
  | error
  deriving DecidableEq

/-- The exception raised when the builder detects an error and stops
immediately (class `BuilderStop` in builder.py). -/
inductive BuilderStop where
  | stop
  deriving DecidableEq

/-- Python `s.startswith(pre)` on our character-list view of strings. -/
def strStartsWith (s pre : String) : Bool :=
  pre.data.isPrefixOf s.data

/-- Helper for substring search: does `needle` occur anywhere in `hay`? -/
def listContainsSub (needle : List Char) : List Char → Bool
  | [] => needle.isEmpty
  | c :: rest => needle.isPrefixOf (c :: rest) || listContainsSub needle rest

/-- Python `needle in hay` on strings: substring containment. -/
def strContains (hay needle : String) : Bool :=
  listContainsSub needle.data hay.data

/-- Split a character list at a separator character (Python `str.split(sep)`
for a one-character separator). -/
def splitOnCharAux (sep : Char) : List Char → List Char → List String
  | [], acc => [String.mk acc.reverse]
  | c :: rest, acc =>
    if c = sep then String.mk acc.reverse :: splitOnCharAux sep rest []
    else splitOnCharAux sep rest (c :: acc)

/-- Python `s.split(sep)` for a one-character separator. -/
def strSplitOn (s : String) (sep : Char) : List String :=
  splitOnCharAux sep s.data []

/-- Python `s.lower()` (ASCII lowering, per character). -/
def strLower (s : String) : String :=
  String.mk (s.data.map Char.toLower)

/-- Python `os.path.join(a, b)` for a relative second component. -/
def pathJoin (a b : String) : String := a ++ "/" ++ b

/-- A filesystem fragment: maps a path to the list of lines of the file
stored there.  Paths not present are treated as empty files. -/
def Fs : Type := List (String × List String)

/-- Read the lines of the file at `p` (Python `open(p).readlines()`). -/
def readFile (fs : Fs) (p : String) : List String :=
  ((List.find? (fun q => q.1 == p) fs).map Prod.snd).getD []

/-- Builder.CONFIG_NAME. -/
def CONFIG_NAME : String := ".config"

/-- Model of `Builder._get_config_paths`: the pair (default, current) of absolute
configuration paths; `default` is the authored file named by
`build.config` and `current` is `.config` inside the LEDE working
directory. -/
def getConfigPaths (workingDir buildConfig : String) : String × String :=
  (buildConfig, pathJoin workingDir CONFIG_NAME)

/-- Model of `Builder._use_glibc`: open the first path returned by
`_get_config_paths` and test for a line starting with
`CONFIG_LIBC="glibc"`. -/
def useGlibc (fs : Fs) (workingDir buildConfig : String) : Bool :=
  (readFile fs (getConfigPaths workingDir buildConfig).1).any
    (fun line => strStartsWith line "CONFIG_LIBC=\"glibc\"")

/-- The variant check as the specification describes it: open the file at
destinationPath (the generated configuration inside the build tree, the
second component of the path pair) and test for the glibc line.  Written
from the words of the spec, to be compared against `useGlibc`. -/
def useGlibcSpecReading (fs : Fs) (workingDir buildConfig : String) : Bool :=
  (readFile fs (getConfigPaths workingDir buildConfig).2).any
    (fun line => strStartsWith line "CONFIG_LIBC=\"glibc\"")

/-- A configured git remote of a local repository: its name and the set of
branch names reachable through it (`repo_remote.refs`). -/
structure GitRemote where
  rname : String
  refs : List String
  deriving DecidableEq

/-- The state of a materialized local git repository, as far as builder.py
inspects it: local branch names, the checked-out branch, and the
configured remotes. -/
structure Repo where
  heads : List String
  activeBranch : String
  remotes : List GitRemote
  deriving DecidableEq

/-- What `git.Repo(path)` finds on disk for one configured repository:
the path is missing (`NoSuchPathError`), the directory exists but is not
a valid repository (`InvalidGitRepositoryError`, with the flag telling
whether `os.listdir(path)` is non-empty), or a valid repository. -/
inductive DirState where
  | missing
  | invalid (nonEmpty : Bool)
  | valid (repo : Repo)
  deriving DecidableEq

/-- One iteration of the loop in `Builder._init_repos`: the stored repo
value (`None` unless the directory is a valid repository), the severity
of the message logged for this path (debug for a missing directory and
for a valid repository, warning for an empty invalid directory, error
for a non-empty invalid directory), and whether the error flag is set by
this iteration. -/
def initRepoStep : DirState → Option Repo × LogLevel × Bool
  | DirState.missing => (none, LogLevel.debug, false)
  | DirState.invalid true => (none, LogLevel.error, true)
  | DirState.invalid false => (none, LogLevel.warning, false)
  | DirState.valid r => (some r, LogLevel.debug, false)

/-- The whole loop of `Builder._init_repos` over the configured
repository list: the ordered name-to-state map `self._repos`, the log of
(name, severity) messages, and the accumulated `error` flag. -/
def initReposLoop : List (String × DirState) →
    List (String × Option Repo) × List (String × LogLevel) × Bool
  | [] => ([], [], false)
  | (n, d) :: rest =>
    let s := initRepoStep d
    let r := initReposLoop rest
    ((n, s.1) :: r.1, (n, s.2.1) :: r.2.1, s.2.2 || r.2.2)

/-- Model of `Builder._init_repos`: run the loop over every configured repository
and raise `BuilderStop` at the end when the error flag is set. -/
def initRepos (cfg : List (String × DirState)) :
    Except BuilderStop (List (String × Option Repo)) :=
  if (initReposLoop cfg).2.2 then Except.error BuilderStop.stop
  else Except.ok (initReposLoop cfg).1

/-- One entry of the configured remote list (`RemoteWalker` item): name,
remote address, required branch, fetch policy. -/
structure Remote where
  name : String
  uri : String
  branch : String
  fetch : Bool
  deriving DecidableEq

/-- A git side effect performed by `Builder._prepare_repo`. -/
inductive GitAction where
  | clone (uri branch : String)
  | fetchRemote (remote : String)
  | createHead (branch remote : String)
  | checkout (branch : String)
  | pull (remote : String)
  deriving DecidableEq

/-- Errors that can abort `Builder._prepare_repo`: a git command failure
(for example a clone of a branch the remote does not expose) or the
explicit `BuilderStop` raised when the required branch exists nowhere. -/
inductive PrepError where
  | gitCommand
  | stop
  deriving DecidableEq

/-- The branches exposed by the remote repository at a given address. -/
def worldBranches (world : List (String × List String)) (uri : String) :
    List String :=
  ((List.find? (fun p => p.1 == uri) world).map Prod.snd).getD []

/-- Model of `git.Repo.clone_from(uri, path, branch=branch)`: succeeds exactly
when the remote exposes the requested branch, producing a repository
checked out at that branch with a single remote named origin. -/
def cloneFrom (world : List (String × List String)) (uri branch : String) :
    Except PrepError Repo :=
  if branch ∈ worldBranches world uri then
    Except.ok { heads := [branch], activeBranch := branch,
                remotes := [{ rname := "origin", refs := worldBranches world uri }] }
  else Except.error PrepError.gitCommand

/-- Model of `Builder._prepare_repo` for one configured remote, given the stored
repository state (`None` when not materialized).  Returns the resulting
repository state together with the trace of git actions performed, or
the error that aborted it. -/
def prepareRepo (world : List (String × List String)) (rm : Remote)
    (repo0 : Option Repo) : Except PrepError (Repo × List GitAction) :=
  let step1 : Except PrepError (Repo × List GitAction) :=
    match repo0 with
    | none =>
      match cloneFrom world rm.uri rm.branch with
      | Except.error e => Except.error e
      | Except.ok r => Except.ok (r, [GitAction.clone rm.uri rm.branch])
    | some r =>
      if rm.fetch then
        Except.ok (r, r.remotes.map (fun gr => GitAction.fetchRemote gr.rname))
      else Except.ok (r, [])
  match step1 with
  | Except.error e => Except.error e
  | Except.ok (repo, acts) =>
    let step2 : Except PrepError (Repo × List GitAction) :=
      if rm.branch ∈ repo.heads then Except.ok (repo, [])
      else
        match List.find? (fun gr => gr.refs.contains rm.branch) repo.remotes with
        | some gr =>
          Except.ok ({ repo with heads := repo.heads ++ [rm.branch] },
                     [GitAction.createHead rm.branch gr.rname])
        | none => Except.error PrepError.stop
    match step2 with
    | Except.error e => Except.error e
    | Except.ok (repo2, acts2) =>
      let step3 : Repo × List GitAction :=
        if repo2.activeBranch ≠ rm.branch then
          ({ repo2 with activeBranch := rm.branch }, [GitAction.checkout rm.branch])
        else (repo2, [])
      let acts4 : List GitAction :=
        if rm.fetch then step3.1.remotes.map (fun gr => GitAction.pull gr.rname)
        else []
      Except.ok (step3.1, acts ++ acts2 ++ step3.2 ++ acts4)

/-- The loop in `Builder.prepare` over all configured remotes: each
repository is prepared in declared order; a raised error stops the loop
at once.  Returns the names of the repositories actually prepared and
the error that stopped the loop, if any. -/
def prepareAllTrace (world : List (String × List String)) :
    List (Remote × Option Repo) → List String × Option PrepError
  | [] => ([], none)
  | (rm, st) :: rest =>
    match prepareRepo world rm st with
    | Except.error e => ([], some e)
    | Except.ok _ =>
      let r := prepareAllTrace world rest
      (rm.name :: r.1, r.2)

/-- Model of `Builder.status`: iterate over the stored repository map in order.
For a repository that was never materialized the stored value is `None`
and the very first attribute access (`repo.active_branch`) raises an
unguarded `AttributeError`; we model that as an error carrying the name
of the first such repository.  On success it reports each repository
with its active branch. -/
def statusTrace : List (String × Option Repo) →
    Except String (List (String × String))
  | [] => Except.ok []
  | (n, none) :: _ => Except.error n
  | (n, some r) :: rest =>
    match statusTrace rest with
    | Except.error e => Except.error e
    | Except.ok l => Except.ok ((n, r.activeBranch) :: l)

/-- The two configuration keys injected by the builder itself
(`CONFIG_EXTERNAL_KERNEL_TREE` and `CONFIG_EXTERNAL_CGMINER_TREE`),
which `_config_lede` filters out of the saved diff. -/
def derivedConfigKeys : List String :=
  ["CONFIG_EXTERNAL_KERNEL_TREE", "CONFIG_EXTERNAL_CGMINER_TREE"]

/-- Model of `Builder._config_lede` as a function on file contents: `mtime0` is
the modification time of the `.config` file in the build tree recorded
before `make menuconfig` runs and `mtime1` the one observed after it;
`diffLines` is the output of `scripts/diffconfig.sh`; `authored` is the
current content of the authored configuration file named by
`build.config`.  The result is the content of the authored file after
the operation: unchanged when the modification time did not move,
otherwise the diff with every line starting with a derived key
removed. -/
def configLede (mtime0 mtime1 : Nat) (diffLines authored : List String) :
    List String :=
  if mtime1 = mtime0 then authored
  else diffLines.filter
    (fun line => !(derivedConfigKeys.any (fun k => strStartsWith line k)))

/-- On-disk state of the feeds manifest `feeds.conf`: whether the file
exists and, if so, its lines. -/
structure FeedsFileState where
  dstExists : Bool
  content : List String
  deriving DecidableEq

/-- Result of the file-handling part of `Builder._prepare_feeds`:
the new state of `feeds.conf`, whether this run wrote the file, and the
final values of the update and install flags. -/
structure FeedsResult where
  state : FeedsFileState
  wrote : Bool
  update : Bool
  install : Bool
  deriving DecidableEq

/-- Model of `Builder._prepare_feeds`, file-handling part: when `feeds.conf` is
absent or `feeds.create_always` is `yes`, rewrite it from the template
`feeds.conf.default`, keeping only lines not mentioning `luci` and
appending the `src-link` line for the luci tree, and force both the
update and the install pass; otherwise leave the file untouched and take
the update and install flags from configuration. -/
def prepareFeedsFile (createAlways updateAlways installAlways : String)
    (srcLines : List String) (luciDir : String) (st : FeedsFileState) :
    FeedsResult :=
  if ¬ st.dstExists ∨ createAlways = "yes" then
    { state := { dstExists := true,
                 content := srcLines.filter (fun line => !(strContains line "luci"))
                   ++ ["src-link luci " ++ luciDir] },
      wrote := true, update := true, install := true }
  else
    { state := st, wrote := false,
      update := updateAlways = "yes", install := installAlways = "yes" }

/-- The target sysroot directory name chosen by `Builder.toolchain`. -/
def targetDirName (glibc : Bool) : String :=
  if glibc then "target-arm_cortex-a9+neon_glibc-2.24_eabi"
  else "target-arm_cortex-a9+neon_musl-1.1.16_eabi"

/-- The toolchain directory name chosen by `Builder.toolchain`. -/
def toolchainDirName (glibc : Bool) : String :=
  if glibc then "toolchain-arm_cortex-a9+neon_gcc-5.4.0_glibc-2.24_eabi"
  else "toolchain-arm_cortex-a9+neon_gcc-5.4.0_musl-1.1.16_eabi"

/-- The staging directory under the LEDE working directory. -/
def stagingOf (workingDir : String) : String := pathJoin workingDir "staging_dir"

/-- Absolute target sysroot directory used by `Builder.toolchain`. -/
def targetDirOf (glibc : Bool) (workingDir : String) : String :=
  pathJoin (stagingOf workingDir) (targetDirName glibc)

/-- Absolute toolchain directory used by `Builder.toolchain`. -/
def toolchainDirOf (glibc : Bool) (workingDir : String) : String :=
  pathJoin (stagingOf workingDir) (toolchainDirName glibc)

/-- The three unconditional environment lines emitted by
`Builder.toolchain` on success. -/
def toolchainBaseLines (glibc : Bool) (workingDir : String) : List String :=
  ["TARGET=\"" ++ targetDirOf glibc workingDir ++ "\";",
   "TOOLCHAIN=\"" ++ toolchainDirOf glibc workingDir ++ "\";",
   "export STAGING_DIR=\"${TARGET}\";"]

/-- The PATH augmentation line of `Builder.toolchain`. -/
def pathExportLine : String := "export PATH=\"${TOOLCHAIN}/bin:$PATH\";"

/-- Model of `Builder.toolchain`: the stdout lines it emits and whether it raised
`BuilderStop`.  `existingDirs` is the set of directories for which
`os.path.exists` holds and `envPath` the current PATH environment
variable.  The PATH augmentation line is emitted only when
`toolchain_dir + "/bin"` does not occur in PATH (Python substring
test). -/
def toolchainScript (glibc : Bool) (workingDir : String)
    (existingDirs : List String) (envPath : String) :
    List String × Option BuilderStop :=
  let targetDir := targetDirOf glibc workingDir
  let toolchainDir := toolchainDirOf glibc workingDir
  if targetDir ∉ existingDirs then
    (["echo Target directory \x27" ++ targetDir ++ "\x27 does not exist;"],
     some BuilderStop.stop)
  else if toolchainDir ∉ existingDirs then
    (["echo Toolchain directory \x27" ++ toolchainDir ++ "\x27 does not exist;"],
     some BuilderStop.stop)
  else
    (toolchainBaseLines glibc workingDir
      ++ (if strContains envPath (toolchainDir ++ "/bin") then []
          else [pathExportLine]),
     none)

/-- The PATH components of an environment PATH value, as the spec reads
it: the colon-separated entries.  Written from the words of the spec, to
be compared with the substring test the code performs. -/
def pathComponentsSpec (p : String) : List String := strSplitOn p ':'

/-- The deploy-relevant part of the configuration object: the deploy
target identifier, the ssh settings (`deploy.ssh`), the miner MAC
address, and the `remove_uuid` and `reboot` flags (configuration values
are strings compared against `yes`). -/
structure DeployCfg where
  target : String
  sshHostname : Option String
  sshUsername : String
  sshPassword : Option String
  sshHostnameSuffix : String
  minerMac : String
  removeUuid : String
  reboot : String
  deriving DecidableEq

/-- Python `l[-3:]`: the last `k` elements of a list. -/
def lastN (k : Nat) (l : List String) : List String := l.drop (l.length - k)

/-- Model of `Builder._get_hostname`: `miner-` followed by the last three MAC
octets, joined and lower-cased. -/
def minerHostname (mac : String) : String :=
  "miner-" ++ strLower (String.join (lastN 3 (strSplitOn mac ':')))

/-- Hostname selection in `Builder._deploy_ssh_sd`: use the configured
hostname when set and non-empty, otherwise derive it from the MAC
address and append the configured suffix. -/
def deployHostname (cfg : DeployCfg) : String :=
  match cfg.sshHostname with
  | some h => if h = "" then minerHostname cfg.minerMac ++ cfg.sshHostnameSuffix else h
  | none => minerHostname cfg.minerMac ++ cfg.sshHostnameSuffix

/-- A remote operation performed over the ssh/sftp session during
deployment. -/
inductive RemoteOp where
  | sessionOpen (host user : String)
  | runCmd (argv : List String)
  | chdir (dir : String)
  | writeFile (name content : String)
  | put (localPath remoteName : String)
  | removeFile (p : String)
  deriving DecidableEq

/-- Model of `Builder._write_uenv`: the content written to `uEnv.txt`. -/
def uenvContent (mac : String) : String := "ethaddr=" ++ mac ++ "\n"

/-- Model of `Builder._deploy_ssh_sd` as the trace of remote operations it
performs, in order.  `etcListing` is the result of
`sftp.listdir` on the `etc` directory of the mounted second partition. -/
def deploySshSd (cfg : DeployCfg) (bootBin fitItb : String)
    (etcListing : List String) : List RemoteOp :=
  [RemoteOp.sessionOpen (deployHostname cfg) cfg.sshUsername,
   RemoteOp.runCmd ["mount", "/dev/mmcblk0p1", "/mnt"],
   RemoteOp.chdir "/mnt",
   RemoteOp.writeFile "uEnv.txt" (uenvContent cfg.minerMac),
   RemoteOp.put bootBin "BOOT.bin",
   RemoteOp.put fitItb "fit.itb",
   RemoteOp.runCmd ["umount", "/mnt"],
   RemoteOp.runCmd ["mount", "/dev/mmcblk0p2", "/mnt"],
   RemoteOp.chdir "/mnt"]
  ++ (if cfg.removeUuid = "yes" ∧ ".extroot-uuid" ∈ etcListing
      then [RemoteOp.removeFile "etc/.extroot-uuid"] else [])
  ++ [RemoteOp.runCmd ["umount", "/mnt"]]
  ++ (if cfg.reboot = "yes" then [RemoteOp.runCmd ["reboot"]] else [])

/-- Recognizer for remove operations in a deployment trace. -/
def isRemoveOp : RemoteOp → Bool
  | RemoteOp.removeFile _ => true
  | _ => false

/-- Model of `Builder.deploy`: read the C-library variant flag, resolve the image
paths under the build output tree, and dispatch on the deploy target.
For the one supported value `sd` it runs the ssh deployment; for any
other value it logs an error message and returns, raising nothing.  The
result carries the remote-operation trace and the (severity, message)
log. -/
def deploy (cfg : DeployCfg) (fs : Fs) (workingDir buildConfig : String)
    (etcListing : List String) :
    Except BuilderStop (List RemoteOp × List (LogLevel × String)) :=
  let genericDir :=
    pathJoin (pathJoin (pathJoin workingDir "bin") "targets")
      (pathJoin "zynq"
        (if ¬ useGlibc fs workingDir buildConfig then "generic" else "generic-glibc"))
  if cfg.target = "sd" then
    Except.ok
      (deploySshSd cfg
        (pathJoin (pathJoin genericDir "uboot-zynq-miner-sd") "BOOT.bin")
        (pathJoin genericDir "lede-zynq-miner-sd-squashfs-fit.itb") etcListing,
       [(LogLevel.info, "Start deploying Miner firmware...")])
  else
    Except.ok
      ([],
       [(LogLevel.info, "Start deploying Miner firmware..."),
        (LogLevel.error,
         "Unsupported target \x27" ++ cfg.target ++ "\x27 for firmware image")])

/-- C4 counterexample: a filesystem whose build-tree `.config`
(destinationPath) contains the glibc line while the authored file named
by `build.config` does not.  The claim says the variant check opens
destinationPath, which would answer true here, but `_use_glibc` answers
false because it opens the first (source) path of the pair. -/
theorem c4_use_glibc_counterexample :
    useGlibc [("/w/.config", ["CONFIG_LIBC=\"glibc\""])] "/w" "/cfg/default" = false
    ∧ useGlibcSpecReading [("/w/.config", ["CONFIG_LIBC=\"glibc\""])] "/w" "/cfg/default"
        = true := by
  constructor <;> rfl

/-- C4 (amended): the C-library variant check reads the authored source
configuration file named by `build.config` (the first component of the
path pair), not the generated `.config` at destinationPath; the content
stored at destinationPath never influences the result, and the check
holds exactly when some line of the source file starts with
`CONFIG_LIBC="glibc"`. -/
theorem c4_use_glibc_reads_source (fs : Fs) (wd bc : String)
    (dstContent : List String) (h : pathJoin wd CONFIG_NAME ≠ bc) :
    useGlibc ((pathJoin wd CONFIG_NAME, dstContent) :: fs) wd bc = useGlibc fs wd bc
    ∧ (useGlibc fs wd bc = true ↔
        ∃ line ∈ readFile fs bc, strStartsWith line "CONFIG_LIBC=\"glibc\"" = true) := by
  constructor
  · have hb : ((pathJoin wd CONFIG_NAME, dstContent).1 == bc) = false := by
      simp [h]
    simp [useGlibc, getConfigPaths, readFile, List.find?_cons, hb]
  · simp [useGlibc, getConfigPaths, List.any_eq_true]

/-- C4 witness: with the glibc line present in the authored source file
the check answers true, whatever the destination `.config` holds. -/
theorem c4_use_glibc_witness :
    useGlibc [(pathJoin "/w" CONFIG_NAME, []),
              ("/cfg/default", ["CONFIG_LIBC=\"glibc\" is set"])]
        "/w" "/cfg/default" = true := by
  have h := (c4_use_glibc_reads_source
    [("/cfg/default", ["CONFIG_LIBC=\"glibc\" is set"])] "/w" "/cfg/default" []
    (by decide)).1
  rw [h]
  decide

/-- C6: in `_config_lede`, if the modification time of the build-tree
`.config` after `make menuconfig` equals the recorded one, the authored
source configuration file keeps its content unchanged; otherwise it is
overwritten with the diffconfig output from which every line starting
with a derived key has been removed, so no line of the rewritten file
starts with a derived key. -/
theorem c6_config_lede_roundtrip (t0 t1 : Nat) (diff authored : List String) :
    (t1 = t0 → configLede t0 t1 diff authored = authored)
    ∧ (t1 ≠ t0 →
        configLede t0 t1 diff authored
          = diff.filter
              (fun line => !(derivedConfigKeys.any (fun k => strStartsWith line k)))
        ∧ ∀ line ∈ configLede t0 t1 diff authored,
            ∀ k ∈ derivedConfigKeys, strStartsWith line k = false) := by
  refine ⟨fun h => by simp [configLede, h], fun h => ⟨by simp [configLede, h], ?_⟩⟩
  intro line hl k hk
  rw [configLede, if_neg h] at hl
  rcases List.mem_filter.mp hl with ⟨_, hpred⟩
  have hany : derivedConfigKeys.any (fun k => strStartsWith line k) = false := by
    simpa using hpred
  simpa using List.any_eq_false.mp hany k hk

/-- C6 witness: an unchanged modification time leaves the authored file
alone, and a changed one rewrites it with the derived-key lines
stripped. -/
theorem c6_config_lede_witness :
    configLede 5 5 ["CONFIG_A=y"] ["A=1"] = ["A=1"]
    ∧ configLede 5 7 ["CONFIG_A=y", "CONFIG_EXTERNAL_KERNEL_TREE=\"/k\"",
                      "CONFIG_EXTERNAL_CGMINER_TREE=\"/c\""] ["A=1"]
        = ["CONFIG_A=y"] := by
  constructor
  · exact (c6_config_lede_roundtrip 5 5 ["CONFIG_A=y"] ["A=1"]).1 rfl
  · rw [((c6_config_lede_roundtrip 5 7
      ["CONFIG_A=y", "CONFIG_EXTERNAL_KERNEL_TREE=\"/k\"",
       "CONFIG_EXTERNAL_CGMINER_TREE=\"/c\""] ["A=1"]).2 (by decide)).1]
    decide

/-- C7: when `feeds.conf` already exists and `feeds.create_always` is
not `yes`, `_prepare_feeds` does not write the manifest and its content
is unchanged; in particular running the operation twice from any
starting state leaves the content produced by the first run
byte-identical and writes nothing the second time. -/
theorem c7_prepare_feeds_idempotent (ca ua ia : String) (src : List String)
    (luciDir : String) (st : FeedsFileState) (c0 : List String)
    (hca : ca ≠ "yes") :
    (st.dstExists = true →
       (prepareFeedsFile ca ua ia src luciDir st).wrote = false
       ∧ (prepareFeedsFile ca ua ia src luciDir st).state.content = st.content)
    ∧ ((prepareFeedsFile ca ua ia src luciDir
          (prepareFeedsFile ca ua ia src luciDir ⟨false, c0⟩).state).wrote = false
       ∧ (prepareFeedsFile ca ua ia src luciDir
            (prepareFeedsFile ca ua ia src luciDir ⟨false, c0⟩).state).state.content
          = (prepareFeedsFile ca ua ia src luciDir ⟨false, c0⟩).state.content) := by
  constructor
  · intro hex
    constructor <;> simp [prepareFeedsFile, hex, hca]
  · constructor <;> simp [prepareFeedsFile, hca]

/-- C7 witness: with the manifest present and no force-create flag, a
run writes nothing and keeps the content. -/
theorem c7_prepare_feeds_witness :
    (prepareFeedsFile "no" "no" "no" ["src-git a", "src-git luci x"] "/l"
        ⟨true, ["kept"]⟩).wrote = false
    ∧ (prepareFeedsFile "no" "no" "no" ["src-git a", "src-git luci x"] "/l"
        ⟨true, ["kept"]⟩).state.content = ["kept"] :=
  (c7_prepare_feeds_idempotent "no" "no" "no" ["src-git a", "src-git luci x"] "/l"
    ⟨true, ["kept"]⟩ [] (by decide)).1 rfl

/-- Helper: the three loop invariants of `_init_repos` — every configured
name gets an entry, the error-level log entries are exactly the
non-empty invalid directories, and the error flag is set exactly when
one of those exists. -/
theorem initReposLoop_spec (cfg : List (String × DirState)) :
    (initReposLoop cfg).1.map Prod.fst = cfg.map Prod.fst
    ∧ ((initReposLoop cfg).2.1.filter
          (fun p => decide (p.2 = LogLevel.error))).map Prod.fst
        = (cfg.filter (fun p => decide (p.2 = DirState.invalid true))).map Prod.fst
    ∧ ((initReposLoop cfg).2.2 = true ↔ ∃ p ∈ cfg, p.2 = DirState.invalid true) := by
  induction cfg with
  | nil => simp [initReposLoop]
  | cons hd tl ih =>
    obtain ⟨n, d⟩ := hd
    obtain ⟨ih1, ih2, ih3⟩ := ih
    cases d with
    | missing => simp [initReposLoop, initRepoStep, ih1, ih2, ih3]
    | invalid b =>
      cases b <;> simp [initReposLoop, initRepoStep, ih1, ih2, ih3]
    | valid r => simp [initReposLoop, initRepoStep, ih1, ih2, ih3]

/-- C2: `_init_repos` checks every configured repository (the stored map
has an entry for each name, in order), records an error for exactly the
paths holding a non-empty invalid directory, and raises the single
`BuilderStop` at the end exactly when at least one error was recorded —
it never aborts on the first invalid repository. -/
theorem c2_init_repos_batched (cfg : List (String × DirState)) :
    (initReposLoop cfg).1.map Prod.fst = cfg.map Prod.fst
    ∧ ((initReposLoop cfg).2.1.filter
          (fun p => decide (p.2 = LogLevel.error))).map Prod.fst
        = (cfg.filter (fun p => decide (p.2 = DirState.invalid true))).map Prod.fst
    ∧ ((initReposLoop cfg).2.2 = true ↔ ∃ p ∈ cfg, p.2 = DirState.invalid true)
    ∧ (initRepos cfg = Except.error BuilderStop.stop
        ↔ (initReposLoop cfg).2.2 = true) := by
  obtain ⟨h1, h2, h3⟩ := initReposLoop_spec cfg
  refine ⟨h1, h2, h3, ?_⟩
  by_cases hb : (initReposLoop cfg).2.2 <;> simp [initRepos, hb]

/-- C2 witness: a configuration with one valid repository, one non-empty
invalid directory, one missing directory and a second non-empty invalid
directory records both errors, still maps all four names, and stops. -/
theorem c2_init_repos_witness :
    (initReposLoop [("lede", DirState.valid ⟨["master"], "master", []⟩),
        ("luci", DirState.invalid true), ("linux", DirState.missing),
        ("cgminer", DirState.invalid true)]).1.map Prod.fst
      = ["lede", "luci", "linux", "cgminer"]
    ∧ initRepos [("lede", DirState.valid ⟨["master"], "master", []⟩),
        ("luci", DirState.invalid true), ("linux", DirState.missing),
        ("cgminer", DirState.invalid true)] = Except.error BuilderStop.stop := by
  constructor
  · exact (c2_init_repos_batched _).1
  · refine ((c2_init_repos_batched _).2.2.2).mpr ?_
    refine ((c2_init_repos_batched _).2.2.1).mpr ?_
    exact ⟨("luci", DirState.invalid true), by decide, rfl⟩

/-- C3: when the required branch of a materialized repository exists
neither in its local heads nor on any of its remotes, `_prepare_repo`
raises the stop signal, and the preparation loop started at that
repository prepares nothing further. -/
theorem c3_missing_branch_fatal (world : List (String × List String))
    (rm : Remote) (repo : Repo) (post : List (Remote × Option Repo))
    (h1 : rm.branch ∉ repo.heads)
    (h2 : ∀ gr ∈ repo.remotes, rm.branch ∉ gr.refs) :
    prepareRepo world rm (some repo) = Except.error PrepError.stop
    ∧ prepareAllTrace world ((rm, some repo) :: post)
        = ([], some PrepError.stop) := by
  have hfind : List.find? (fun gr => decide (rm.branch ∈ gr.refs)) repo.remotes
      = none := by
    rw [List.find?_eq_none]
    intro gr hgr
    simpa using h2 gr hgr
  have hmain : prepareRepo world rm (some repo) = Except.error PrepError.stop := by
    unfold prepareRepo
    cases hf : rm.fetch <;> simp [hf, h1, hfind]
  exact ⟨hmain, by simp [prepareAllTrace, hmain]⟩

/-- C3 witness: a repository on branch master whose single remote only
exposes master cannot provide branch dev; preparation stops at once and
no later repository is prepared. -/
theorem c3_missing_branch_witness :
    prepareAllTrace [("u", ["master"])]
        [({ name := "linux", uri := "u", branch := "dev", fetch := false },
          some ⟨["master"], "master", [⟨"origin", ["master"]⟩]⟩),
         ({ name := "cgminer", uri := "u", branch := "master", fetch := false },
          none)]
      = ([], some PrepError.stop) :=
  (c3_missing_branch_fatal [("u", ["master"])]
    { name := "linux", uri := "u", branch := "dev", fetch := false }
    ⟨["master"], "master", [⟨"origin", ["master"]⟩]⟩
    [({ name := "cgminer", uri := "u", branch := "master", fetch := false }, none)]
    (by decide) (by decide)).2

/-- C9: an existing but empty repository directory is only warned about
during initialization — no error flag — and is stored exactly like a
missing directory (state `None`), so a subsequent preparation pass
clones it from its remote, the clone being the first git action
performed. -/
theorem c9_empty_dir_warn_then_clone (world : List (String × List String))
    (rm : Remote) :
    initRepoStep (DirState.invalid false) = (none, LogLevel.warning, false)
    ∧ prepareRepo world rm (initRepoStep (DirState.invalid false)).1
        = prepareRepo world rm (initRepoStep DirState.missing).1
    ∧ (rm.branch ∈ worldBranches world rm.uri →
        ∃ r rest, prepareRepo world rm none
          = Except.ok (r, GitAction.clone rm.uri rm.branch :: rest)) := by
  refine ⟨rfl, rfl, fun hmem => ?_⟩
  cases hf : rm.fetch
  · refine ⟨{ heads := [rm.branch], activeBranch := rm.branch,
              remotes := [⟨"origin", worldBranches world rm.uri⟩] }, [], ?_⟩
    simp [prepareRepo, cloneFrom, hmem, hf]
  · refine ⟨{ heads := [rm.branch], activeBranch := rm.branch,
              remotes := [⟨"origin", worldBranches world rm.uri⟩] },
            [GitAction.pull "origin"], ?_⟩
    simp [prepareRepo, cloneFrom, hmem, hf]

/-- C9 witness: a remote exposing master is cloned when the stored state
is `None`. -/
theorem c9_empty_dir_witness :
    ∃ r rest, prepareRepo [("u", ["master"])]
        { name := "lede", uri := "u", branch := "master", fetch := false } none
      = Except.ok (r, GitAction.clone "u" "master" :: rest) :=
  (c9_empty_dir_warn_then_clone [("u", ["master"])]
    { name := "lede", uri := "u", branch := "master", fetch := false }).2.2
    (by decide)

/-- C10: `status` dereferences every stored repository unguardedly; with
all repositories before some non-materialized one in good state, the
operation fails with the error naming that first non-materialized
repository, reporting nothing. -/
theorem c10_status_requires_materialized (pre : List (String × Option Repo))
    (n : String) (post : List (String × Option Repo))
    (h : ∀ p ∈ pre, p.2 ≠ none) :
    statusTrace (pre ++ (n, (none : Option Repo)) :: post) = Except.error n := by
  induction pre with
  | nil => simp [statusTrace]
  | cons hd tl ih =>
    obtain ⟨m, s⟩ := hd
    have hs : s ≠ none := h (m, s) (List.mem_cons_self _ _)
    obtain ⟨r, rfl⟩ : ∃ r, s = some r := by
      cases s with
      | none => exact absurd rfl hs
      | some r => exact ⟨r, rfl⟩
    have ih2 := ih (fun p hp => h p (List.mem_cons_of_mem _ hp))
    simp only [List.cons_append, statusTrace, List.append_eq, ih2]

/-- C10 witness: the second repository is not materialized; status fails
naming it. -/
theorem c10_status_witness :
    statusTrace [("lede", some ⟨["master"], "master", []⟩), ("luci", none)]
      = Except.error "luci" :=
  c10_status_requires_materialized [("lede", some ⟨["master"], "master", []⟩)]
    "luci" [] (by decide)

/-- C5 counterexample: with PATH equal to the toolchain binary directory
name followed by `EXTRA`, the binary directory is not a PATH component,
yet `toolchain` omits the PATH export line, because the code tests
substring containment (Python `in`), not component membership. -/
theorem c5_toolchain_counterexample :
    ((pathComponentsSpec (toolchainDirOf false "/w" ++ "/binEXTRA")).contains
        (toolchainDirOf false "/w" ++ "/bin")) = false
    ∧ pathExportLine ∉
        (toolchainScript false "/w"
          [targetDirOf false "/w", toolchainDirOf false "/w"]
          (toolchainDirOf false "/w" ++ "/binEXTRA")).1 := by
  constructor
  · decide
  · decide

/-- C5 (amended): with both staging directories present, the emitted
script contains the PATH export line exactly when `toolchain_dir + "/bin"`
does not occur as a substring of PATH; for two inputs differing only in
the pre-existing PATH content — one not containing that string, one
containing it — the outputs differ by exactly the one omitted line, and
neither run stops. -/
theorem c5_toolchain_path_substring (glibc : Bool) (wd : String)
    (dirs : List String) (p1 p2 : String)
    (ht : targetDirOf glibc wd ∈ dirs) (hc : toolchainDirOf glibc wd ∈ dirs)
    (h1 : strContains p1 (toolchainDirOf glibc wd ++ "/bin") = false)
    (h2 : strContains p2 (toolchainDirOf glibc wd ++ "/bin") = true) :
    (toolchainScript glibc wd dirs p1).1
        = toolchainBaseLines glibc wd ++ [pathExportLine]
    ∧ (toolchainScript glibc wd dirs p2).1 = toolchainBaseLines glibc wd
    ∧ (toolchainScript glibc wd dirs p1).2 = none
    ∧ (toolchainScript glibc wd dirs p2).2 = none := by
  refine ⟨?_, ?_, ?_, ?_⟩ <;> simp [toolchainScript, ht, hc, h1, h2]

/-- C5 witness: a clean PATH gets the export line, a PATH already
containing the binary directory does not. -/
theorem c5_toolchain_witness :
    (toolchainScript false "/w" [targetDirOf false "/w", toolchainDirOf false "/w"]
        "/usr/bin").1
      = toolchainBaseLines false "/w" ++ [pathExportLine]
    ∧ (toolchainScript false "/w" [targetDirOf false "/w", toolchainDirOf false "/w"]
        (toolchainDirOf false "/w" ++ "/bin")).1
      = toolchainBaseLines false "/w" :=
  ⟨(c5_toolchain_path_substring false "/w"
      [targetDirOf false "/w", toolchainDirOf false "/w"] "/usr/bin"
      (toolchainDirOf false "/w" ++ "/bin")
      (by decide) (by decide) (by decide) (by decide)).1,
   (c5_toolchain_path_substring false "/w"
      [targetDirOf false "/w", toolchainDirOf false "/w"] "/usr/bin"
      (toolchainDirOf false "/w" ++ "/bin")
      (by decide) (by decide) (by decide) (by decide)).2.1⟩

/-- A concrete configuration with the unsupported deploy target `nand`. -/
def cfgNand : DeployCfg :=
  { target := "nand", sshHostname := none, sshUsername := "root",
    sshPassword := none, sshHostnameSuffix := "", minerMac := "00:0A:35:00:00:00",
    removeUuid := "no", reboot := "no" }

/-- A concrete configuration with the unsupported deploy target `usb`. -/
def cfgUsb : DeployCfg :=
  { target := "usb", sshHostname := none, sshUsername := "root",
    sshPassword := none, sshHostnameSuffix := "", minerMac := "00:0A:35:00:00:00",
    removeUuid := "no", reboot := "no" }

/-- C1 counterexample: with deploy target `nand` (not the supported
`sd`), `deploy` performs zero remote operations but returns normally
with only an error log message — no stop signal is raised, contradicting
the claim that it fails with a raised stop signal. -/
theorem c1_deploy_counterexample :
    cfgNand.target ≠ "sd"
    ∧ deploy cfgNand [] "/w" "/cfg" []
        = Except.ok ([],
            [(LogLevel.info, "Start deploying Miner firmware..."),
             (LogLevel.error,
              "Unsupported target \x27nand\x27 for firmware image")]) := by
  constructor
  · decide
  · rfl

/-- C1 (amended): for every configuration whose deploy target is not
`sd`, `deploy` performs zero remote operations (no session, mount,
upload, remove or reboot) and logs an error naming the target, but it
does not raise a stop signal — it returns normally. -/
theorem c1_deploy_unsupported_no_stop (cfg : DeployCfg) (fs : Fs)
    (wd bc : String) (listing : List String) (h : cfg.target ≠ "sd") :
    deploy cfg fs wd bc listing
      = Except.ok ([],
          [(LogLevel.info, "Start deploying Miner firmware..."),
           (LogLevel.error,
            "Unsupported target \x27" ++ cfg.target ++ "\x27 for firmware image")]) := by
  simp [deploy, h]

/-- C1 witness: the amended statement at the concrete target `usb`. -/
theorem c1_deploy_witness :
    deploy cfgUsb [] "/w" "/cfg" []
      = Except.ok ([],
          [(LogLevel.info, "Start deploying Miner firmware..."),
           (LogLevel.error,
            "Unsupported target \x27" ++ cfgUsb.target
              ++ "\x27 for firmware image")]) :=
  c1_deploy_unsupported_no_stop cfgUsb [] "/w" "/cfg" [] (by decide)

/-- C8: in every run of the ssh deployment with the removal flag set,
if `.extroot-uuid` appears in the listing of the partition `etc`
directory then the trace contains exactly one remove operation, on
`etc/.extroot-uuid`, placed after the mount of the second (root
filesystem) partition at position 7 and before its unmount at position
10 (the first mount/unmount pair occupies positions 1 and 6); if the
marker is absent, the trace contains no remove operation at all (and the
deployment is the same total trace, so no error arises from the
check). -/
theorem c8_deploy_remove_uuid_trace (cfg : DeployCfg) (bootBin fitItb : String)
    (listing : List String) (hflag : cfg.removeUuid = "yes") :
    (".extroot-uuid" ∈ listing →
       (deploySshSd cfg bootBin fitItb listing).filter isRemoveOp
          = [RemoteOp.removeFile "etc/.extroot-uuid"]
       ∧ (deploySshSd cfg bootBin fitItb listing).get? 1
          = some (RemoteOp.runCmd ["mount", "/dev/mmcblk0p1", "/mnt"])
       ∧ (deploySshSd cfg bootBin fitItb listing).get? 6
          = some (RemoteOp.runCmd ["umount", "/mnt"])
       ∧ (deploySshSd cfg bootBin fitItb listing).get? 7
          = some (RemoteOp.runCmd ["mount", "/dev/mmcblk0p2", "/mnt"])
       ∧ (deploySshSd cfg bootBin fitItb listing).get? 9
          = some (RemoteOp.removeFile "etc/.extroot-uuid")
       ∧ (deploySshSd cfg bootBin fitItb listing).get? 10
          = some (RemoteOp.runCmd ["umount", "/mnt"]))
    ∧ (".extroot-uuid" ∉ listing →
       (deploySshSd cfg bootBin fitItb listing).filter isRemoveOp = []) := by
  constructor
  · intro hmem
    rw [deploySshSd, if_pos ⟨hflag, hmem⟩]
    refine ⟨?_, rfl, rfl, rfl, rfl, rfl⟩
    by_cases hr : cfg.reboot = "yes" <;>
      simp [hr, isRemoveOp, List.filter_append, List.filter]
  · intro hmem
    rw [deploySshSd, if_neg (fun hand => hmem hand.2)]
    by_cases hr : cfg.reboot = "yes" <;>
      simp [hr, isRemoveOp, List.filter_append, List.filter]

/-- C8 witness: a concrete removal-flagged deployment with the marker
present yields exactly the one remove operation at position 9. -/
theorem c8_deploy_remove_uuid_witness :
    (deploySshSd
        { target := "sd", sshHostname := some "h", sshUsername := "root",
          sshPassword := none, sshHostnameSuffix := "",
          minerMac := "00:0A:35:00:00:00", removeUuid := "yes", reboot := "no" }
        "/b/BOOT.bin" "/b/fit.itb" ["config", ".extroot-uuid"]).filter isRemoveOp
      = [RemoteOp.removeFile "etc/.extroot-uuid"]
    ∧ (deploySshSd
        { target := "sd", sshHostname := some "h", sshUsername := "root",
          sshPassword := none, sshHostnameSuffix := "",
          minerMac := "00:0A:35:00:00:00", removeUuid := "yes", reboot := "no" }
        "/b/BOOT.bin" "/b/fit.itb" ["config", ".extroot-uuid"]).get? 9
      = some (RemoteOp.removeFile "etc/.extroot-uuid") := by
  have h := (c8_deploy_remove_uuid_trace
    { target := "sd", sshHostname := some "h", sshUsername := "root",
      sshPassword := none, sshHostnameSuffix := "",
      minerMac := "00:0A:35:00:00:00", removeUuid := "yes", reboot := "no" }
    "/b/BOOT.bin" "/b/fit.itb" ["config", ".extroot-uuid"] rfl).1 (by decide)
  exact ⟨h.1, h.2.2.2.2.1⟩
